import Mathlib

/-!
# Verification of the Logz.io MCP server's resilient query gateway

A shallow embedding of the TypeScript source (`src/api/client.ts`,
`src/api/endpoints.ts`, `src/tools/search.ts`, `src/tools/stats.ts`) and
proofs of the specification's claims about it.

Conventions of the embedding:
* JavaScript timestamps (`Date.getTime()` / ISO strings denoting instants)
  are modelled as `Int` milliseconds since the epoch; the ISO string carried
  on the wire is identified with the instant it denotes.
* JavaScript `x || y` (falsy coalescing) is modelled by the `jsOr*` helpers,
  which treat `0`, the empty string and `undefined` (`Option.none`) as falsy.
* JavaScript objects used as string-keyed dictionaries (the `aggs` object)
  are modelled as association lists with `setKey` giving assignment
  semantics: replace in place when the key exists, append otherwise.
* Fallible HTTP calls are modelled by an `HttpOutcome` value per attempt;
  the classified-error sum type follows the source's error taxonomy.
-/

namespace Logzio

/-- JS `x || y` where `x : number | undefined` (`0` and `undefined` are falsy). -/
def jsOrInt (x : Option Int) (y : Int) : Int :=
  match x with
  | some v => if v = 0 then y else v
  | none => y

/-- JS `x || y` where `x : number | undefined`, on naturals. -/
def jsOrNat (x : Option Nat) (y : Nat) : Nat :=
  match x with
  | some v => if v = 0 then y else v
  | none => y

/-- JS `x || y` where `x : string | undefined` (empty string is falsy). -/
def jsOrStr (x : Option String) (y : String) : String :=
  match x with
  | some s => if s = "" then y else s
  | none => y

/-- JS `x || y` where both sides are possibly-absent strings. -/
def jsOrOptStr (x : Option String) (y : Option String) : Option String :=
  match x with
  | some s => if s = "" then y else some s
  | none => y

/-- JS `x || y` where `x` is a possibly-absent instant (ISO strings denoting
instants are never empty, so presence alone decides truthiness). -/
def jsOrOpt (x : Option Int) (y : Option Int) : Option Int :=
  match x with
  | some v => some v
  | none => y

/-- Substring occurrence on character lists (structural recursion). -/
def hasInfix : List Char → List Char → Bool
  | [], pat => pat.isEmpty
  | c :: rest, pat => pat.isPrefixOf (c :: rest) || hasInfix rest pat

/-- JS `s.includes(pat)`: `pat` occurs as a contiguous substring of `s`. -/
def strContains (s pat : String) : Bool :=
  hasInfix s.toList pat.toList

/-!
## Time-range resolution (`src/api/endpoints.ts`, `parseTimeRange`)

The source computes `now = new Date()`, `to = now.toISOString()` and, per
recognized token, `from = new Date(now.getTime() - duration).toISOString()`.
`now` is passed explicitly here; the result is the `(from, to)` pair of
instants (`none` = the field is absent from the returned object).
-/

/-- Source `parseTimeRange` from `src/api/endpoints.ts` (lines 122–167): resolve a
relative time token to an explicit `(from, to)` pair anchored at `now`.
Unrecognized tokens (and an absent argument) yield the empty object. -/
def parseTimeRange (timeRange : Option String) (now : Int) : Option Int × Option Int :=
  match timeRange with
  | none => (none, none)
  | some tr =>
    if tr = "1h" then (some (now - 60 * 60 * 1000), some now)
    else if tr = "6h" then (some (now - 6 * 60 * 60 * 1000), some now)
    else if tr = "12h" then (some (now - 12 * 60 * 60 * 1000), some now)
    else if tr = "24h" then (some (now - 24 * 60 * 60 * 1000), some now)
    else if tr = "3d" then (some (now - 3 * 24 * 60 * 60 * 1000), some now)
    else if tr = "7d" then (some (now - 7 * 24 * 60 * 60 * 1000), some now)
    else if tr = "30d" then (some (now - 30 * 24 * 60 * 60 * 1000), some now)
    else (none, none)

/-- The shared time-resolution prologue of `searchLogs` (`src/tools/search.ts`
lines 218–226) and `getLogStats` (`src/tools/stats.ts` lines 148–158): keep
caller-supplied `from`/`to`; when either is missing, resolve
`timeRange || '24h'` and fill the holes from the resolved pair. -/
def resolveTimes (fromT toT : Option Int) (timeRange : Option String) (now : Int) :
    Option Int × Option Int :=
  if fromT.isNone || toT.isNone then
    let tr := parseTimeRange (some (jsOrStr timeRange "24h")) now
    (jsOrOpt fromT tr.1, jsOrOpt toT tr.2)
  else (fromT, toT)

/-!
## Histogram interval selection (`src/api/client.ts`, `getTimeInterval`)

The source parses the two ISO strings back to instants and computes
`diffHours = (end - start) / 3600000` in JS number arithmetic; the quotient
is modelled exactly in `ℚ` (the comparisons against 6/24/72/168 are
decided identically, as the operands are far below any double rounding
threshold that could cross these boundaries).
-/

/-- Source `getTimeInterval` from `src/api/client.ts` (lines 334–346): choose the
date-histogram bucket width from the elapsed span. -/
def getTimeInterval (fromT toT : Option Int) : String :=
  match fromT, toT with
  | some s, some e =>
    let diffHours : ℚ := ((e - s : Int) : ℚ) / (1000 * 60 * 60)
    if diffHours ≤ 6 then "30m"
    else if diffHours ≤ 24 then "1h"
    else if diffHours ≤ 72 then "3h"
    else if diffHours ≤ 168 then "6h"
    else "1d"
  | _, _ => "1h"

/-!
## Query payloads (`src/api/client.ts`, `searchLogs` and `getLogStats`)
-/

/-- The `@timestamp` range filter: each bound present iff the corresponding
instant was supplied (the source spreads `gte`/`lte` in conditionally). -/
structure RangeClause where
  gte : Option Int
  lte : Option Int
deriving DecidableEq, Repr

/-- Bucket-order directives used by the source's aggregations. -/
inductive HOrder
  | keyDesc
  | countDesc
deriving DecidableEq, Repr

/-- An aggregation clause of the statistics payload. -/
inductive Agg
  | dateHistogram (field : String) (interval : String) (order : HOrder)
  | terms (field : String) (size : Nat) (order : HOrder)
deriving DecidableEq, Repr

/-- The query tree shapes the source actually builds. -/
inductive QueryNode
  | queryString (q : String)
  | matchAll
  | boolMustFilter (must : List QueryNode) (filter : RangeClause)
  | boolFilter (filter : RangeClause)

/-- Sort directive on `@timestamp`. -/
inductive SortOrder
  | asc
  | desc
deriving DecidableEq, Repr

/-- The body POSTed by `LogzioApiClient.searchLogs`. -/
structure SearchBody where
  query : QueryNode
  size : Nat
  sort : SortOrder

/-- Source `LogzioApiClient.searchLogs` (`src/api/client.ts` lines 178–228): wrap the
text query in a `query_string` clause, add a boolean `must`/`filter` wrapper
exactly when a time bound is present, default `size` to 50 and sort to
descending timestamp. -/
def clientSearchBody (query : String) (fromT toT : Option Int)
    (size : Option Nat) (sort : Option String) : SearchBody :=
  let base := QueryNode.queryString query
  let q := if fromT.isSome || toT.isSome then
      QueryNode.boolMustFilter [base] ⟨fromT, toT⟩
    else base
  let srt := match sort with
    | some s =>
      if s = "" then SortOrder.desc
      else if strContains s "desc" then SortOrder.desc else SortOrder.asc
    | none => SortOrder.desc
  { query := q, size := jsOrNat size 50, sort := srt }

/-- Key membership in a string-keyed dictionary modelled as an association
list. -/
def hasKey : List (String × Agg) → String → Bool
  | [], _ => false
  | p :: t, k => if p.1 = k then true else hasKey t k

/-- Property access `m[k]` on a string-keyed dictionary modelled as an
association list (`undefined` = `none`). -/
def getKey : List (String × Agg) → String → Option Agg
  | [], _ => none
  | p :: t, k => if p.1 = k then some p.2 else getKey t k

/-- JS object assignment `m[k] = v` on a string-keyed dictionary modelled as
an association list: replace in place when the key exists, append otherwise. -/
def setKey (m : List (String × Agg)) (k : String) (v : Agg) : List (String × Agg) :=
  if hasKey m k then
    m.map (fun p => if p.1 = k then (k, v) else p)
  else m ++ [(k, v)]

/-- The body POSTed by `LogzioApiClient.getLogStats`. -/
structure StatsBody where
  query : QueryNode
  size : Nat
  aggs : List (String × Agg)

/-- The loop body of the `groupBy.forEach` in `getLogStats`
(`src/api/client.ts` lines 284–292): assign
`aggs['by_' + field] = terms(field + '.keyword', size 20, count desc)`. -/
def statsGroupStep (m : List (String × Agg)) (field : String) : List (String × Agg) :=
  setKey m ("by_" ++ field) (Agg.terms (field ++ ".keyword") 20 HOrder.countDesc)

/-- The payload construction of `LogzioApiClient.getLogStats`
(`src/api/client.ts` lines 250–302): `size = 0`, a `time_histogram`
date-histogram (interval from `getTimeInterval`, buckets ordered by
descending key), `match_all` replaced by a range filter when a bound is
present, one `by_<field>` terms aggregation per grouping field (size 20,
descending count), and finally the always-added `by_level` terms
aggregation (size 10, descending count). -/
def statsQueryBody (fromT toT : Option Int) (groupBy : List String) : StatsBody :=
  let aggs0 : List (String × Agg) :=
    [("time_histogram", Agg.dateHistogram "@timestamp" (getTimeInterval fromT toT) HOrder.keyDesc)]
  let q := if fromT.isSome || toT.isSome then
      QueryNode.boolFilter ⟨fromT, toT⟩
    else QueryNode.matchAll
  let aggs1 := groupBy.foldl statsGroupStep aggs0
  let aggs2 := setKey aggs1 "by_level" (Agg.terms "level.keyword" 10 HOrder.countDesc)
  { query := q, size := 0, aggs := aggs2 }

/-!
## Tool-level pipelines (`src/tools/search.ts`, `src/tools/stats.ts`)
-/

/-- Source `smartPhraseDetection` from `src/tools/search.ts` (lines 140–165): leave
queries with quotes, field syntax, boolean operators or wildcards alone;
wrap phrase-like multi-word queries in quotes. The source's
`query.trim().split(RegExpWhitespaceRuns)` is modelled by splitting the
character list at whitespace and dropping empty runs, which yields the same
word list. -/
def smartPhraseDetection (query : String) : String :=
  if strContains query "\"" || strContains query ":" ||
     strContains query " AND " || strContains query " OR " ||
     strContains query " NOT " ||
     strContains query "*" || strContains query "?" then
    query
  else
    let words := (query.toList.splitOnP (fun c => c.isWhitespace)).filter (fun w => w ≠ [])
    if words.length > 1 then
      let hasSpecialChars := strContains query "-" || strContains query "_" ||
        strContains query "."
      let isLikelyPhrase := words.length ≤ 6 &&
        (hasSpecialChars || words.any (fun w => w.length > 3))
      if isLikelyPhrase then "\"" ++ query ++ "\"" else query
    else query

/-- Validated parameters of the `search_logs` tool (after zod defaults). -/
structure SearchToolParams where
  query : String
  timeRange : Option String
  fromT : Option Int
  toT : Option Int
  severity : Option String
  limit : Nat
  sort : SortOrder
deriving Repr

/-- The payload-producing part of the `searchLogs` tool
(`src/tools/search.ts` lines 210–248): smart phrase detection, time-range
resolution with the silent `'24h'` default, appending
`\x20AND level:<severity>` to the text query when a severity is given, then
the client-side body construction. -/
def searchPipeline (p : SearchToolParams) (now : Int) : SearchBody :=
  let enhancedQuery := smartPhraseDetection p.query
  let times := resolveTimes p.fromT p.toT p.timeRange now
  let q := match p.severity with
    | some s => enhancedQuery ++ " AND level:" ++ s
    | none => enhancedQuery
  let srt := match p.sort with
    | SortOrder.desc => "@timestamp:desc"
    | SortOrder.asc => "@timestamp:asc"
  clientSearchBody q times.1 times.2 (some p.limit) (some srt)

/-- The payload-producing part of the `getLogStats` tool
(`src/tools/stats.ts` lines 148–175 composed with the client construction):
time-range resolution with the silent `'24h'` default, then the statistics
payload. -/
def statsPipeline (timeRange : Option String) (fromT toT : Option Int)
    (groupBy : Option (List String)) (now : Int) : StatsBody :=
  let times := resolveTimes fromT toT timeRange now
  statsQueryBody times.1 times.2 (groupBy.getD [])

/-!
## Error taxonomy and request executor (`src/api/client.ts`, `makeRequest`)

The error classes and the predicates `isRetryableError` / `getRetryDelay`
live in `src/utils/errors.ts`, which is not present under `src/` (only its
importers are); those definitions are modelled from the spec (§4.1, §4.3)
and marked as such. The response classification (`handleResponseError`),
`parseRetryAfter` and the retry loop (`makeRequest`) are translated from
`src/api/client.ts`.
-/

/-- A transport-level (no HTTP response) failure cause. -/
inductive TransportKind
  | connectionReset
  | dnsFailure
  | connectionRefused
  | timeout
  | otherTransport
deriving DecidableEq, Repr

/-- Modelled from the spec: the Classified Error taxonomy of §4.1
(`src/utils/errors.ts` is missing from `src/`). `RateLimit` carries the
suggested retry delay in milliseconds; `BackendUnavailable` / `BadRequest`
carry the HTTP status. -/
inductive CError
  | authentication
  | rateLimit (retryAfterMs : Option Int)
  | backendUnavailable (status : Nat)
  | badRequest (status : Nat)
  | transport (kind : TransportKind)
  | validation (msg : String)
  | configuration (msg : String)
  | unknownError (msg : String)
deriving DecidableEq, Repr

/-- JS `parseInt(s, 10)`: skip leading whitespace, optional sign, then the
longest leading digit run; `NaN` (here `none`) when no digit follows. -/
def jsParseInt (s : String) : Option Int :=
  let cs := s.toList.dropWhile (fun c => c.isWhitespace)
  let signAndRest : Int × List Char :=
    match cs with
    | '-' :: r => (-1, r)
    | '+' :: r => (1, r)
    | r => (1, r)
  let ds := signAndRest.2.takeWhile (fun c => c.isDigit)
  if ds.isEmpty then none
  else some (signAndRest.1 * (ds.foldl (fun a c => a * 10 + (c.toNat - 48)) 0 : Nat))

/-- Source `LogzioApiClient.parseRetryAfter` (`src/api/client.ts` lines 121–128):
read `retry-after` (falling back to `Retry-After`) from the response
headers and convert seconds to milliseconds. -/
def parseRetryAfter (headers : List (String × String)) : Option Int :=
  match jsOrOptStr (headers.lookup "retry-after") (headers.lookup "Retry-After") with
  | some s =>
    match jsParseInt s with
    | some seconds => some (seconds * 1000)
    | none => none
  | none => none

/-- Modelled from the spec: `ApiError.fromResponse` (in the missing
`src/utils/errors.ts`) classifies a non-401/429 HTTP status — §4.1:
`BackendUnavailable` for 5xx, `BadRequest` otherwise. -/
def apiErrorFromResponse (status : Nat) : CError :=
  if 500 ≤ status then CError.backendUnavailable status
  else CError.badRequest status

/-- Source `LogzioApiClient.handleResponseError` (`src/api/client.ts` lines 80–116)
restricted to its classification outcome: 401 → authentication, 429 → rate
limit carrying the parsed `Retry-After`, anything else with a response →
`ApiError.fromResponse`. -/
def handleResponseError (status : Nat) (headers : List (String × String)) : CError :=
  if status = 401 then CError.authentication
  else if status = 429 then CError.rateLimit (parseRetryAfter headers)
  else apiErrorFromResponse status

/-- The observable outcome of one HTTP attempt. -/
inductive HttpOutcome (β : Type)
  | success (body : β)
  | httpError (status : Nat) (headers : List (String × String))
  | transportFailure (kind : TransportKind)
deriving DecidableEq, Repr

/-- One attempt's result after classification: the decoded body on success,
a Classified Error otherwise (`handleResponseError` for HTTP errors; a
transport failure is wrapped without a status, as in `client.ts` line 113). -/
def classifyOutcome {β : Type} : HttpOutcome β → Except CError β
  | HttpOutcome.success b => Except.ok b
  | HttpOutcome.httpError status headers => Except.error (handleResponseError status headers)
  | HttpOutcome.transportFailure k => Except.error (CError.transport k)

/-- Modelled from the spec: `isRetryableError` (in the missing
`src/utils/errors.ts`) — §4.1: true exactly for `RateLimit`,
`BackendUnavailable`, and transport-level errors recognized as transient
(connection reset, DNS failure, connection refused, timeout). -/
def isRetryableError : CError → Bool
  | CError.rateLimit _ => true
  | CError.backendUnavailable _ => true
  | CError.transport TransportKind.connectionReset => true
  | CError.transport TransportKind.dnsFailure => true
  | CError.transport TransportKind.connectionRefused => true
  | CError.transport TransportKind.timeout => true
  | _ => false

/-- Modelled from the spec: `getRetryDelay` (in the missing
`src/utils/errors.ts`) — §4.3: the error's suggested retry delay when
present (the rate-limit case), otherwise nothing. -/
def getRetryDelay : CError → Option Int
  | CError.rateLimit d => d
  | _ => none

/-- The retry-relevant configuration fields consumed by the client
(defaults per `src/index.ts`: 3 attempts, 1000 ms base delay). -/
structure Config where
  retryAttempts : Nat
  retryDelay : Int
deriving DecidableEq, Repr

/-- Source `LogzioApiClient.calculateBackoffDelay` (`src/api/client.ts` lines
161–166): exponential backoff capped at 30000 ms. -/
def calculateBackoffDelay (cfg : Config) (attempt : Nat) : Int :=
  min (cfg.retryDelay * 2 ^ (attempt - 1)) 30000

/-- The observable trace of one `makeRequest` call: the final result, the
delays slept before each retry (in order), and the number of HTTP attempts
performed. -/
structure RunResult (β : Type) where
  result : Except CError β
  delays : List Int
  attempts : Nat

/-- Source `LogzioApiClient.makeRequest` (`src/api/client.ts` lines 133–156): issue
the attempt, return the body on success; on failure retry — after sleeping
`getRetryDelay(error) || calculateBackoffDelay(attempt)` — while
`attempt <= retryAttempts` and the error is retryable, else rethrow. The
backend is modelled as a map from the attempt number to that attempt's
outcome. -/
def makeRequest {β : Type} (cfg : Config) (backend : Nat → HttpOutcome β)
    (attempt : Nat) : RunResult β :=
  match classifyOutcome (backend attempt) with
  | Except.ok b => ⟨Except.ok b, [], 1⟩
  | Except.error e =>
    if h : attempt ≤ cfg.retryAttempts ∧ isRetryableError e = true then
      let delay := jsOrInt (getRetryDelay e) (calculateBackoffDelay cfg attempt)
      let rest := makeRequest cfg backend (attempt + 1)
      ⟨rest.result, delay :: rest.delays, rest.attempts + 1⟩
    else ⟨Except.error e, [], 1⟩
termination_by cfg.retryAttempts + 1 - attempt
decreasing_by
  obtain ⟨h1, -⟩ := h
  omega

/-!
## Response normalization (`src/api/client.ts` lines 310–328,
`src/tools/query.ts` lines 220–232)
-/

/-- The backend's `hits.total`: either a bare number or an object whose
`value` field may itself be absent. -/
inductive TotalShape
  | num (n : Nat)
  | obj (value : Option Nat)
deriving DecidableEq, Repr

/-- The backend's `hits` object: a possibly-absent total and the list of hit
documents (left uninterpreted by the normalizer, modelled by their ids). -/
structure HitsObj where
  total : Option TotalShape
  hits : Option (List String)
deriving DecidableEq, Repr

/-- One raw histogram bucket as returned by the backend. -/
structure RawBucket where
  key : Int
  keyAsString : Option String
  docCount : Nat
deriving DecidableEq, Repr

/-- The backend aggregation results the stats normalizer reads. -/
structure RawAggs where
  timeHistogramBuckets : Option (List RawBucket)
deriving DecidableEq, Repr

/-- A raw backend search response. -/
structure RawResponse where
  hits : Option HitsObj
  took : Option Nat
  aggregations : Option RawAggs
deriving DecidableEq, Repr

/-- The total-count normalization shared by `getLogStats` (`client.ts` lines
311–313) and `queryLogs` (`query.ts` lines 230–232):
`typeof hits?.total === 'number' ? hits.total : (hits?.total)?.value || 0`. -/
def normalizeTotal (hits : Option HitsObj) : Nat :=
  match hits with
  | some h =>
    match h.total with
    | some (TotalShape.num n) => n
    | some (TotalShape.obj v) => jsOrNat v 0
    | none => 0
  | none => 0

/-- A normalized histogram bucket: `key: key_as_string || key`,
`count: doc_count`, `timestamp: key_as_string`. -/
structure NormBucket where
  key : String ⊕ Int
  count : Nat
  timestamp : Option String
deriving DecidableEq, Repr

/-- The normalized statistics result assembled by `getLogStats`. -/
structure NormStats where
  total : Nat
  took : Nat
  buckets : List NormBucket
deriving DecidableEq, Repr

/-- The outcome of the `queryLogs` tool after the backend call
(`src/tools/query.ts` lines 220–232). -/
inductive QueryOutcome
  | noResults
  | results (total : Nat) (items : List String)
deriving DecidableEq, Repr

/-- The response handling of the `queryLogs` tool (`src/tools/query.ts`
lines 220–232): when `hits` (or `hits.hits`) is absent, return the graceful
"no logs found" content instead of raising; otherwise extract the dual-shape
total and the hit documents. -/
def queryLogsOutcome (r : RawResponse) : QueryOutcome :=
  match r.hits with
  | none => QueryOutcome.noResults
  | some h =>
    match h.hits with
    | none => QueryOutcome.noResults
    | some items => QueryOutcome.results (normalizeTotal r.hits) items

/-- The response transformation of `LogzioApiClient.getLogStats`
(`src/api/client.ts` lines 310–328): dual-shape total, `took || 0`, and
`aggregations?.time_histogram?.buckets?.map(...) || []`. -/
def normalizeStats (r : RawResponse) : NormStats :=
  let buckets :=
    match r.aggregations with
    | some a =>
      match a.timeHistogramBuckets with
      | some bs =>
        bs.map (fun b =>
          { key := match b.keyAsString with
              | some s => if s = "" then Sum.inr b.key else Sum.inl s
              | none => Sum.inr b.key
            count := b.docCount
            timestamp := b.keyAsString })
      | none => []
    | none => []
  { total := normalizeTotal r.hits
    took := jsOrNat r.took 0
    buckets := buckets }

/-!
## Lemmas about the dictionary model and payload construction
-/

/-- Replacing the entry for a present key makes lookup return the new value. -/
theorem getKey_map_replace (m : List (String × Agg)) (k : String) (v : Agg)
    (h : hasKey m k = true) :
    getKey (m.map (fun p => if p.1 = k then (k, v) else p)) k = some v := by
  induction m with
  | nil => simp [hasKey] at h
  | cons p t ih =>
    by_cases hp : p.1 = k
    · simp [getKey, hp]
    · rw [hasKey, if_neg hp] at h
      simpa [getKey, hp] using ih h

/-- Appending a fresh key makes lookup return its value. -/
theorem getKey_append_fresh (m : List (String × Agg)) (k : String) (v : Agg)
    (h : hasKey m k = false) :
    getKey (m ++ [(k, v)]) k = some v := by
  induction m with
  | nil => simp [getKey]
  | cons p t ih =>
    by_cases hp : p.1 = k
    · rw [hasKey, if_pos hp] at h; cases h
    · rw [hasKey, if_neg hp] at h
      simpa [getKey, hp] using ih h

/-- Assignment then lookup of the same key yields the assigned value. -/
theorem getKey_setKey_self (m : List (String × Agg)) (k : String) (v : Agg) :
    getKey (setKey m k v) k = some v := by
  unfold setKey
  by_cases h : hasKey m k
  · rw [if_pos h]; exact getKey_map_replace m k v h
  · rw [if_neg h]; exact getKey_append_fresh m k v (by simpa using h)

/-- Replacing the entry for one key leaves other lookups unchanged. -/
theorem getKey_map_replace_ne (m : List (String × Agg)) (k : String) (v : Agg)
    (k' : String) (h : k' ≠ k) :
    getKey (m.map (fun p => if p.1 = k then (k, v) else p)) k' = getKey m k' := by
  induction m with
  | nil => rfl
  | cons p t ih =>
    by_cases hp : p.1 = k
    · simp [getKey, hp, Ne.symm h, ih]
    · simp [getKey, hp, ih]

/-- Appending an entry for one key leaves other lookups unchanged. -/
theorem getKey_append_ne (m : List (String × Agg)) (k : String) (v : Agg)
    (k' : String) (h : k' ≠ k) :
    getKey (m ++ [(k, v)]) k' = getKey m k' := by
  induction m with
  | nil => simp [getKey, Ne.symm h]
  | cons p t ih => by_cases hp : p.1 = k' <;> simp [getKey, hp, ih]

/-- Assignment to one key leaves other lookups unchanged. -/
theorem getKey_setKey_ne (m : List (String × Agg)) (k : String) (v : Agg)
    (k' : String) (h : k' ≠ k) :
    getKey (setKey m k v) k' = getKey m k' := by
  unfold setKey
  split
  · exact getKey_map_replace_ne m k v k' h
  · exact getKey_append_ne m k v k' h

/-- Assignment to a present key does not change the key list. -/
theorem keys_setKey_of_hasKey (m : List (String × Agg)) (k : String) (v : Agg)
    (h : hasKey m k = true) :
    (setKey m k v).map Prod.fst = m.map Prod.fst := by
  unfold setKey
  rw [if_pos h, List.map_map]
  apply List.map_congr_left
  intro p _
  by_cases hp : p.1 = k <;> simp [hp]

/-- An absent key is not among the dictionary keys. -/
theorem not_mem_keys_of_not_hasKey (m : List (String × Agg)) (k : String)
    (h : hasKey m k = false) :
    k ∉ m.map Prod.fst := by
  induction m with
  | nil => simp
  | cons p t ih =>
    by_cases hp : p.1 = k
    · rw [hasKey, if_pos hp] at h; cases h
    · rw [hasKey, if_neg hp] at h
      simpa [Ne.symm hp] using ih h

/-- Assignment preserves distinctness of the keys. -/
theorem nodup_keys_setKey (m : List (String × Agg)) (k : String) (v : Agg)
    (h : (m.map Prod.fst).Nodup) :
    ((setKey m k v).map Prod.fst).Nodup := by
  by_cases hm : hasKey m k
  · rw [keys_setKey_of_hasKey m k v hm]; exact h
  · unfold setKey
    rw [if_neg hm, List.map_append]
    simp only [List.map_cons, List.map_nil]
    rw [List.nodup_append]
    refine ⟨h, List.nodup_singleton k, ?_⟩
    intro a ha hb
    simp only [List.mem_singleton] at hb
    subst hb
    exact not_mem_keys_of_not_hasKey m a (by simpa using hm) ha

/-- Aggregation names formed by prefixing `by_` are injective in the field. -/
theorem by_prefix_injective {f g : String} (h : "by_" ++ f = "by_" ++ g) : f = g := by
  have h2 := congrArg String.data h
  rw [String.data_append, String.data_append] at h2
  exact String.ext (List.append_cancel_left h2)

/-- No grouping field can collide with the histogram aggregation name. -/
theorem by_prefix_ne_time_histogram (f : String) : "by_" ++ f ≠ "time_histogram" := by
  intro h
  have h2 := congrArg String.data h
  rw [String.data_append] at h2
  have hb : ("by_" : String).data = ['b', 'y', '_'] := rfl
  rw [hb] at h2
  have ht : ("time_histogram" : String).data =
      ['t', 'i', 'm', 'e', '_', 'h', 'i', 's', 't', 'o', 'g', 'r', 'a', 'm'] := rfl
  rw [ht] at h2
  exact absurd (List.head_eq_of_cons_eq h2) (by decide)

/-- The grouping fold leaves keys that no grouping field produces unchanged. -/
theorem foldl_groupStep_getKey_ne (l : List String) (m : List (String × Agg)) (k : String)
    (h : ∀ f ∈ l, "by_" ++ f ≠ k) :
    getKey (l.foldl statsGroupStep m) k = getKey m k := by
  induction l generalizing m with
  | nil => rfl
  | cons g t ih =>
    rw [List.foldl_cons, ih _ (fun f hf => h f (List.mem_cons_of_mem _ hf))]
    exact getKey_setKey_ne _ _ _ _ (fun hk => h g (List.mem_cons_self g t) hk.symm)

/-- A binding whose value every colliding grouping field would reassign
identically survives the grouping fold. -/
theorem foldl_groupStep_getKey_stable (l : List String) (m : List (String × Agg))
    (k : String) (v : Agg) (hv : getKey m k = some v)
    (hl : ∀ g ∈ l, "by_" ++ g = k → Agg.terms (g ++ ".keyword") 20 HOrder.countDesc = v) :
    getKey (l.foldl statsGroupStep m) k = some v := by
  induction l generalizing m with
  | nil => exact hv
  | cons g t ih =>
    rw [List.foldl_cons]
    apply ih
    · by_cases hk : "by_" ++ g = k
      · rw [statsGroupStep, ← hk, getKey_setKey_self]
        exact congrArg some (hl g (List.mem_cons_self g t) hk)
      · rw [statsGroupStep, getKey_setKey_ne _ _ _ _ (fun h2 => hk h2.symm)]
        exact hv
    · exact fun g' hg' => hl g' (List.mem_cons_of_mem _ hg')

/-- After the grouping fold, every grouping field has its terms aggregation. -/
theorem foldl_groupStep_getKey_mem (l : List String) (m : List (String × Agg))
    (f : String) (hf : f ∈ l) :
    getKey (l.foldl statsGroupStep m) ("by_" ++ f) =
      some (Agg.terms (f ++ ".keyword") 20 HOrder.countDesc) := by
  induction l generalizing m with
  | nil => cases hf
  | cons g t ih =>
    rw [List.foldl_cons]
    by_cases hft : f ∈ t
    · exact ih _ hft
    · have hfg : f = g := by
        rcases List.mem_cons.mp hf with h | h
        · exact h
        · exact absurd h hft
      subst hfg
      apply foldl_groupStep_getKey_stable
      · rw [statsGroupStep, getKey_setKey_self]
      · intro g' _ hkey
        rw [by_prefix_injective hkey]

/-- The grouping fold preserves distinctness of the aggregation names. -/
theorem foldl_groupStep_keys_nodup (l : List String) (m : List (String × Agg))
    (h : (m.map Prod.fst).Nodup) :
    ((l.foldl statsGroupStep m).map Prod.fst).Nodup := by
  induction l generalizing m with
  | nil => exact h
  | cons g t ih => exact ih _ (nodup_keys_setKey _ _ _ h)

/-- The histogram interval characterized by millisecond spans: the rational
division of `getTimeInterval` compares against each hour threshold exactly
as the millisecond difference compares against the threshold in ms. -/
theorem getTimeInterval_spans (s e : Int) :
    getTimeInterval (some s) (some e) =
      (if e - s ≤ 21600000 then "30m"
       else if e - s ≤ 86400000 then "1h"
       else if e - s ≤ 259200000 then "3h"
       else if e - s ≤ 604800000 then "6h"
       else "1d") := by
  simp only [getTimeInterval]
  have key : ∀ (c : ℚ) (m : Int), c * (1000 * 60 * 60) = (m : ℚ) →
      ((((e - s : Int) : ℚ) / (1000 * 60 * 60) ≤ c) ↔ (e - s ≤ m)) := by
    intro c m hm
    rw [div_le_iff₀ (by norm_num), hm, Int.cast_le]
  simp only [key 6 21600000 (by norm_num), key 24 86400000 (by norm_num),
    key 72 259200000 (by norm_num), key 168 604800000 (by norm_num)]

/-- Every statistics payload keeps its date-histogram aggregation, with the
interval chosen by `getTimeInterval` and buckets ordered by descending key. -/
theorem statsAggs_getKey_time_histogram (ft tt : Option Int) (gb : List String) :
    getKey (statsQueryBody ft tt gb).aggs "time_histogram" =
      some (Agg.dateHistogram "@timestamp" (getTimeInterval ft tt) HOrder.keyDesc) := by
  show getKey (setKey (gb.foldl statsGroupStep
      [("time_histogram",
        Agg.dateHistogram "@timestamp" (getTimeInterval ft tt) HOrder.keyDesc)])
    "by_level" (Agg.terms "level.keyword" 10 HOrder.countDesc)) "time_histogram" = _
  rw [getKey_setKey_ne _ _ _ _ (by decide),
    foldl_groupStep_getKey_ne _ _ _ (fun f _ => by_prefix_ne_time_histogram f)]
  simp [getKey]

/-- Every `makeRequest` call performs at least one attempt. -/
theorem makeRequest_attempts_pos {β : Type} (cfg : Config)
    (backend : Nat → HttpOutcome β) (attempt : Nat) :
    1 ≤ (makeRequest cfg backend attempt).attempts := by
  rw [makeRequest]
  split
  · simp
  · split
    · simp
    · simp

/-!
## Claim theorems
-/

/-- Claim C1, counterexample: with `retryAttempts = 3` and a backend that
always answers 503, the executor does not perform exactly 3 HTTP attempts
(the recursion retries while `attempt <= retryAttempts`, so the initial
attempt plus 3 retries makes 4 attempts in total). -/
theorem retry_three_attempts_counterexample :
    (makeRequest ⟨3, 1000⟩
      (fun _ => HttpOutcome.httpError (β := Unit) 503 []) 1).attempts ≠ 3 := by
  have h4 : (makeRequest ⟨3, 1000⟩
      (fun _ => HttpOutcome.httpError (β := Unit) 503 []) 1).attempts = 4 := by
    simp [makeRequest, classifyOutcome, handleResponseError, apiErrorFromResponse,
      isRetryableError, getRetryDelay, jsOrInt, calculateBackoffDelay, parseRetryAfter]
  omega

/-- Claim C1, amended: with `retryAttempts = 3` (and a non-negative base
delay) against a backend whose every call fails with 503, the executor
performs exactly 4 HTTP attempts (the initial attempt plus 3 retries); the
backoff delays slept before the retries are non-decreasing and never exceed
30000 ms, and the call ends with a final `BackendUnavailable` classified
error. -/
theorem retry_exhaustion_behavior (cfg : Config) (h3 : cfg.retryAttempts = 3)
    (hd : 0 ≤ cfg.retryDelay) :
    (makeRequest cfg (fun _ => HttpOutcome.httpError (β := Unit) 503 []) 1).result =
      Except.error (CError.backendUnavailable 503) ∧
    (makeRequest cfg (fun _ => HttpOutcome.httpError (β := Unit) 503 []) 1).attempts = 4 ∧
    (makeRequest cfg (fun _ => HttpOutcome.httpError (β := Unit) 503 []) 1).delays =
      [min cfg.retryDelay 30000, min (cfg.retryDelay * 2) 30000,
        min (cfg.retryDelay * 4) 30000] ∧
    List.Chain' (fun d1 d2 : Int => d1 ≤ d2)
      (makeRequest cfg (fun _ => HttpOutcome.httpError (β := Unit) 503 []) 1).delays ∧
    (∀ d ∈ (makeRequest cfg (fun _ => HttpOutcome.httpError (β := Unit) 503 []) 1).delays,
      d ≤ 30000) := by
  obtain ⟨ra, rd⟩ := cfg
  simp only [Config.retryAttempts] at h3
  subst h3
  simp only [Config.retryDelay] at hd
  have heval : makeRequest ⟨3, rd⟩ (fun _ => HttpOutcome.httpError (β := Unit) 503 []) 1 =
      ⟨Except.error (CError.backendUnavailable 503),
        [min rd 30000, min (rd * 2) 30000, min (rd * 4) 30000], 4⟩ := by
    simp [makeRequest, classifyOutcome, handleResponseError, apiErrorFromResponse,
      isRetryableError, getRetryDelay, jsOrInt, calculateBackoffDelay, parseRetryAfter]
  rw [heval]
  refine ⟨rfl, rfl, rfl, ?_, ?_⟩
  · refine List.chain'_cons.mpr ⟨?_, List.chain'_cons.mpr ⟨?_, List.chain'_singleton _⟩⟩
    · exact min_le_min (by omega) le_rfl
    · exact min_le_min (by omega) le_rfl
  · intro d hd2
    simp only [List.mem_cons, List.not_mem_nil, or_false] at hd2
    rcases hd2 with h | h | h <;> rw [h] <;> exact min_le_right _ _

/-- Witness for the amended claim C1 at the default configuration
(3 retry attempts, 1000 ms base delay). -/
theorem retry_exhaustion_behavior_witness :
    (⟨3, 1000⟩ : Config).retryAttempts = 3 ∧ (0 : Int) ≤ (⟨3, 1000⟩ : Config).retryDelay ∧
    ((makeRequest (⟨3, 1000⟩ : Config)
        (fun _ => HttpOutcome.httpError (β := Unit) 503 []) 1).result =
      Except.error (CError.backendUnavailable 503) ∧
    (makeRequest (⟨3, 1000⟩ : Config)
        (fun _ => HttpOutcome.httpError (β := Unit) 503 []) 1).attempts = 4 ∧
    (makeRequest (⟨3, 1000⟩ : Config)
        (fun _ => HttpOutcome.httpError (β := Unit) 503 []) 1).delays =
      [min (1000 : Int) 30000, min ((1000 : Int) * 2) 30000, min ((1000 : Int) * 4) 30000] ∧
    List.Chain' (fun d1 d2 : Int => d1 ≤ d2)
      (makeRequest (⟨3, 1000⟩ : Config)
        (fun _ => HttpOutcome.httpError (β := Unit) 503 []) 1).delays ∧
    (∀ d ∈ (makeRequest (⟨3, 1000⟩ : Config)
        (fun _ => HttpOutcome.httpError (β := Unit) 503 []) 1).delays, d ≤ 30000)) :=
  ⟨rfl, by norm_num, retry_exhaustion_behavior ⟨3, 1000⟩ rfl (by norm_num)⟩

/-- Claim C2: the retry-eligibility predicate `isRetryableError` answers true
for classified HTTP 429 and 502/503/504 and for the transient transport
failures (connection reset, DNS failure, connection refused, timeout),
answers false for classified HTTP 400/401/403/404, and is — together with
the attempt bound — the only gate the executor consults: a failing call is
retried (performs more than one attempt) exactly when the attempt bound
holds and the classified error is retryable. -/
theorem isRetryable_characterization :
    (∀ hs, isRetryableError (handleResponseError 429 hs) = true) ∧
    (∀ hs, isRetryableError (handleResponseError 502 hs) = true) ∧
    (∀ hs, isRetryableError (handleResponseError 503 hs) = true) ∧
    (∀ hs, isRetryableError (handleResponseError 504 hs) = true) ∧
    isRetryableError (CError.transport TransportKind.connectionReset) = true ∧
    isRetryableError (CError.transport TransportKind.dnsFailure) = true ∧
    isRetryableError (CError.transport TransportKind.connectionRefused) = true ∧
    isRetryableError (CError.transport TransportKind.timeout) = true ∧
    (∀ hs, isRetryableError (handleResponseError 400 hs) = false) ∧
    (∀ hs, isRetryableError (handleResponseError 401 hs) = false) ∧
    (∀ hs, isRetryableError (handleResponseError 403 hs) = false) ∧
    (∀ hs, isRetryableError (handleResponseError 404 hs) = false) ∧
    (∀ (β : Type) (cfg : Config) (backend : Nat → HttpOutcome β) (attempt : Nat)
      (e : CError), classifyOutcome (backend attempt) = Except.error e →
      (1 < (makeRequest cfg backend attempt).attempts ↔
        attempt ≤ cfg.retryAttempts ∧ isRetryableError e = true)) := by
  refine ⟨?_, ?_, ?_, ?_, rfl, rfl, rfl, rfl, ?_, ?_, ?_, ?_, ?_⟩
  · intro hs; simp [handleResponseError, isRetryableError]
  · intro hs; simp [handleResponseError, apiErrorFromResponse, isRetryableError]
  · intro hs; simp [handleResponseError, apiErrorFromResponse, isRetryableError]
  · intro hs; simp [handleResponseError, apiErrorFromResponse, isRetryableError]
  · intro hs; simp [handleResponseError, apiErrorFromResponse, isRetryableError]
  · intro hs; simp [handleResponseError, isRetryableError]
  · intro hs; simp [handleResponseError, apiErrorFromResponse, isRetryableError]
  · intro hs; simp [handleResponseError, apiErrorFromResponse, isRetryableError]
  · intro β cfg backend attempt e h
    rw [makeRequest, h]
    dsimp only
    by_cases hq : attempt ≤ cfg.retryAttempts ∧ isRetryableError e = true
    · rw [dif_pos hq]
      simp only []
      constructor
      · intro _; exact hq
      · intro _
        have := makeRequest_attempts_pos cfg backend (attempt + 1)
        omega
    · rw [dif_neg hq]
      simp only []
      constructor
      · intro h1; omega
      · intro h1; exact absurd h1 hq

/-- Witness for claim C2: the retry gate evaluated on a concrete 503 run. -/
theorem isRetryable_characterization_witness :
    classifyOutcome ((fun _ => HttpOutcome.httpError (β := Unit) 503 []) 1) =
      Except.error (CError.backendUnavailable 503) ∧
    (1 < (makeRequest ⟨3, 1000⟩
        (fun _ => HttpOutcome.httpError (β := Unit) 503 []) 1).attempts ↔
      1 ≤ (⟨3, 1000⟩ : Config).retryAttempts ∧
        isRetryableError (CError.backendUnavailable 503) = true) :=
  ⟨rfl, isRetryable_characterization.2.2.2.2.2.2.2.2.2.2.2.2 Unit ⟨3, 1000⟩
    (fun _ => HttpOutcome.httpError 503 []) 1 (CError.backendUnavailable 503) rfl⟩

/-- Claim C3: every relative time token in the recognized set resolves, at a
fixed instant `now`, to the pair `to = now`, `from = now` minus the nominal
duration, so the span equals the nominal duration exactly and the range is
ordered. -/
theorem relative_token_resolution (now : Int) :
    (parseTimeRange (some "1h") now = (some (now - 3600000), some now) ∧
      now - (now - 3600000) = 3600000 ∧ now - 3600000 ≤ now) ∧
    (parseTimeRange (some "6h") now = (some (now - 21600000), some now) ∧
      now - (now - 21600000) = 21600000 ∧ now - 21600000 ≤ now) ∧
    (parseTimeRange (some "12h") now = (some (now - 43200000), some now) ∧
      now - (now - 43200000) = 43200000 ∧ now - 43200000 ≤ now) ∧
    (parseTimeRange (some "24h") now = (some (now - 86400000), some now) ∧
      now - (now - 86400000) = 86400000 ∧ now - 86400000 ≤ now) ∧
    (parseTimeRange (some "3d") now = (some (now - 259200000), some now) ∧
      now - (now - 259200000) = 259200000 ∧ now - 259200000 ≤ now) ∧
    (parseTimeRange (some "7d") now = (some (now - 604800000), some now) ∧
      now - (now - 604800000) = 604800000 ∧ now - 604800000 ≤ now) ∧
    (parseTimeRange (some "30d") now = (some (now - 2592000000), some now) ∧
      now - (now - 2592000000) = 2592000000 ∧ now - 2592000000 ≤ now) := by
  refine ⟨⟨rfl, by omega, by omega⟩, ⟨rfl, by omega, by omega⟩, ⟨rfl, by omega, by omega⟩,
    ⟨rfl, by omega, by omega⟩, ⟨rfl, by omega, by omega⟩, ⟨rfl, by omega, by omega⟩,
    ⟨rfl, by omega, by omega⟩⟩

/-- Claim C4: the histogram bucket width is 30 minutes for spans up to 6
hours, 1 hour up to 24 hours, 3 hours up to 72 hours, 6 hours up to 168
hours, and 1 day beyond; a missing bound selects 1 hour; the boundary spans
6h, 24h, 72h, 168h select the smaller bucket while 6h+1s and 168h+1s select
the next larger one; and this width is exactly the interval carried by the
statistics payload date-histogram. -/
theorem histogram_interval_selection :
    (∀ s e : Int, e - s ≤ 21600000 → getTimeInterval (some s) (some e) = "30m") ∧
    (∀ s e : Int, 21600000 < e - s → e - s ≤ 86400000 →
      getTimeInterval (some s) (some e) = "1h") ∧
    (∀ s e : Int, 86400000 < e - s → e - s ≤ 259200000 →
      getTimeInterval (some s) (some e) = "3h") ∧
    (∀ s e : Int, 259200000 < e - s → e - s ≤ 604800000 →
      getTimeInterval (some s) (some e) = "6h") ∧
    (∀ s e : Int, 604800000 < e - s → getTimeInterval (some s) (some e) = "1d") ∧
    (∀ t : Option Int, getTimeInterval none t = "1h") ∧
    (∀ s : Option Int, getTimeInterval s none = "1h") ∧
    getTimeInterval (some 0) (some 21600000) = "30m" ∧
    getTimeInterval (some 0) (some 21601000) = "1h" ∧
    getTimeInterval (some 0) (some 86400000) = "1h" ∧
    getTimeInterval (some 0) (some 259200000) = "3h" ∧
    getTimeInterval (some 0) (some 604800000) = "6h" ∧
    getTimeInterval (some 0) (some 604801000) = "1d" ∧
    (∀ (ft tt : Option Int) (gb : List String),
      getKey (statsQueryBody ft tt gb).aggs "time_histogram" =
        some (Agg.dateHistogram "@timestamp" (getTimeInterval ft tt) HOrder.keyDesc)) := by
  refine ⟨?_, ?_, ?_, ?_, ?_, ?_, ?_, ?_, ?_, ?_, ?_, ?_, ?_,
    statsAggs_getKey_time_histogram⟩
  · intro s e h
    rw [getTimeInterval_spans, if_pos h]
  · intro s e h1 h2
    rw [getTimeInterval_spans, if_neg (by omega), if_pos h2]
  · intro s e h1 h2
    rw [getTimeInterval_spans, if_neg (by omega), if_neg (by omega), if_pos h2]
  · intro s e h1 h2
    rw [getTimeInterval_spans, if_neg (by omega), if_neg (by omega), if_neg (by omega),
      if_pos h2]
  · intro s e h1
    rw [getTimeInterval_spans, if_neg (by omega), if_neg (by omega), if_neg (by omega),
      if_neg (by omega)]
  · intro t; cases t <;> rfl
  · intro s; cases s <;> rfl
  · rw [getTimeInterval_spans]; norm_num
  · rw [getTimeInterval_spans]; norm_num
  · rw [getTimeInterval_spans]; norm_num
  · rw [getTimeInterval_spans]; norm_num
  · rw [getTimeInterval_spans]; norm_num
  · rw [getTimeInterval_spans]; norm_num

/-- Witness for claim C4: a span of zero milliseconds selects 30-minute
buckets. -/
theorem histogram_interval_selection_witness :
    (0 : Int) - 0 ≤ 21600000 ∧ getTimeInterval (some 0) (some 0) = "30m" :=
  ⟨by norm_num, histogram_interval_selection.1 0 0 (by norm_num)⟩

/-- Claim C5: every statistics payload has `size = 0`; each caller-supplied
grouping field `f` yields one terms aggregation named `by_f` on the field
`f.keyword`, capped at 20 buckets and ordered by descending count; a
`by_level` terms aggregation on `level.keyword` capped at 10 buckets
(descending count) is always present; aggregation names are pairwise
distinct; the date-histogram buckets are ordered by descending key; and the
end-to-end call with `timeRange = "24h"` and `groupBy = ["service"]` yields
`size = 0`, a `by_service` terms aggregation of size 20, the `by_level`
aggregation of size 10, and a 1-hour histogram ordered descending by key. -/
theorem stats_payload_shape (ft tt : Option Int) (gb : List String) (now : Int) :
    (statsQueryBody ft tt gb).size = 0 ∧
    (∀ f ∈ gb, ∃ sz, getKey (statsQueryBody ft tt gb).aggs ("by_" ++ f) =
        some (Agg.terms (f ++ ".keyword") sz HOrder.countDesc) ∧ sz ≤ 20) ∧
    getKey (statsQueryBody ft tt gb).aggs "by_level" =
      some (Agg.terms "level.keyword" 10 HOrder.countDesc) ∧
    getKey (statsQueryBody ft tt gb).aggs "time_histogram" =
      some (Agg.dateHistogram "@timestamp" (getTimeInterval ft tt) HOrder.keyDesc) ∧
    ((statsQueryBody ft tt gb).aggs.map Prod.fst).Nodup ∧
    (statsPipeline (some "24h") none none (some ["service"]) now).size = 0 ∧
    getKey (statsPipeline (some "24h") none none (some ["service"]) now).aggs
      "by_service" = some (Agg.terms "service.keyword" 20 HOrder.countDesc) ∧
    getKey (statsPipeline (some "24h") none none (some ["service"]) now).aggs
      "by_level" = some (Agg.terms "level.keyword" 10 HOrder.countDesc) ∧
    getKey (statsPipeline (some "24h") none none (some ["service"]) now).aggs
      "time_histogram" = some (Agg.dateHistogram "@timestamp" "1h" HOrder.keyDesc) := by
  have haggs : ∀ (ft tt : Option Int) (gb : List String),
      (statsQueryBody ft tt gb).aggs =
        setKey (gb.foldl statsGroupStep
            [("time_histogram",
              Agg.dateHistogram "@timestamp" (getTimeInterval ft tt) HOrder.keyDesc)])
          "by_level" (Agg.terms "level.keyword" 10 HOrder.countDesc) := by
    intro ft tt gb
    rfl
  have hby : ∀ (ft tt : Option Int) (gb : List String), ∀ f ∈ gb,
      ∃ sz, getKey (statsQueryBody ft tt gb).aggs ("by_" ++ f) =
        some (Agg.terms (f ++ ".keyword") sz HOrder.countDesc) ∧ sz ≤ 20 := by
    intro ft tt gb f hf
    rw [haggs]
    by_cases hl : f = "level"
    · subst hl
      refine ⟨10, ?_, by norm_num⟩
      have h1 : ("by_" ++ "level" : String) = "by_level" := rfl
      rw [h1, getKey_setKey_self]
      rfl
    · refine ⟨20, ?_, le_refl 20⟩
      have h2 : ("by_level" : String) = "by_" ++ "level" := rfl
      have hne : ("by_" ++ f : String) ≠ "by_level" :=
        fun h => hl (by_prefix_injective (h.trans h2))
      rw [getKey_setKey_ne _ _ _ _ hne]
      exact foldl_groupStep_getKey_mem gb _ f hf
  have hlvl : ∀ (ft tt : Option Int) (gb : List String),
      getKey (statsQueryBody ft tt gb).aggs "by_level" =
        some (Agg.terms "level.keyword" 10 HOrder.countDesc) := by
    intro ft tt gb
    rw [haggs, getKey_setKey_self]
  have hnodup : ∀ (ft tt : Option Int) (gb : List String),
      ((statsQueryBody ft tt gb).aggs.map Prod.fst).Nodup := by
    intro ft tt gb
    rw [haggs]
    exact nodup_keys_setKey _ _ _ (foldl_groupStep_keys_nodup _ _ (by simp))
  have hres : resolveTimes none none (some "24h") now =
      (some (now - 86400000), some now) := by
    simp [resolveTimes, parseTimeRange, jsOrStr, jsOrOpt]
  have hpipe : statsPipeline (some "24h") none none (some ["service"]) now =
      statsQueryBody (some (now - 86400000)) (some now) ["service"] := by
    rw [statsPipeline, hres]
    rfl
  have hint : getTimeInterval (some (now - 86400000)) (some now) = "1h" := by
    rw [getTimeInterval_spans]
    norm_num
  refine ⟨rfl, hby ft tt gb, hlvl ft tt gb, statsAggs_getKey_time_histogram ft tt gb,
    hnodup ft tt gb, ?_, ?_, ?_, ?_⟩
  · rw [hpipe]; rfl
  · rw [hpipe, haggs]
    have hne : ("by_service" : String) ≠ "by_level" := by decide
    rw [getKey_setKey_ne _ _ _ _ hne]
    have h3 : ("by_service" : String) = "by_" ++ "service" := rfl
    rw [h3]
    exact foldl_groupStep_getKey_mem _ _ _ (List.mem_singleton_self "service")
  · rw [hpipe]; exact hlvl _ _ _
  · rw [hpipe, statsAggs_getKey_time_histogram, hint]

/-- Witness for claim C5: the by-service terms aggregation of a concrete
request, with its membership hypothesis discharged. -/
theorem stats_payload_shape_witness :
    ("service" : String) ∈ ["service"] ∧
    ∃ sz, getKey (statsQueryBody none none ["service"]).aggs ("by_" ++ "service") =
        some (Agg.terms ("service" ++ ".keyword") sz HOrder.countDesc) ∧ sz ≤ 20 :=
  ⟨List.mem_singleton_self "service",
    (stats_payload_shape none none ["service"] 0).2.1 "service"
      (List.mem_singleton_self "service")⟩

/-- Claim C6: the end-to-end search call with query "timeout", time range
"1h" and severity "error" produces a boolean query whose range filter on
`@timestamp` covers exactly the last hour and whose text clause is the
caller text with " AND level:error" appended as a conjunct; and in the
client body the range filter carries `gte`/`lte` exactly for the bounds
that are present. -/
theorem search_payload_end_to_end (now a b : Int) (q : String) (sz : Option Nat)
    (st : Option String) :
    (searchPipeline ⟨"timeout", some "1h", none, none, some "error", 50, SortOrder.desc⟩
        now).query =
      QueryNode.boolMustFilter [QueryNode.queryString "timeout AND level:error"]
        ⟨some (now - 3600000), some now⟩ ∧
    (clientSearchBody q (some a) (some b) sz st).query =
      QueryNode.boolMustFilter [QueryNode.queryString q] ⟨some a, some b⟩ ∧
    (clientSearchBody q (some a) none sz st).query =
      QueryNode.boolMustFilter [QueryNode.queryString q] ⟨some a, none⟩ ∧
    (clientSearchBody q none (some b) sz st).query =
      QueryNode.boolMustFilter [QueryNode.queryString q] ⟨none, some b⟩ := by
  have hspd : smartPhraseDetection "timeout" = "timeout" := by decide
  have hres : resolveTimes none none (some "1h") now =
      (some (now - 3600000), some now) := by
    simp [resolveTimes, jsOrStr, parseTimeRange, jsOrOpt]
  refine ⟨?_, ?_, ?_, ?_⟩
  · simp [searchPipeline, clientSearchBody, hres, hspd]
  · simp [clientSearchBody]
  · simp [clientSearchBody]
  · simp [clientSearchBody]

/-- Claim C7: the normalizer reads a bare-number total and an object total
to the same plain integer, and an entirely absent `hits` field yields a
zero total with an empty item list through the graceful no-results branch,
never an error. -/
theorem normalizer_total_shapes (l : Option (List String)) (tk : Option Nat)
    (hl : List String) :
    normalizeTotal (some ⟨some (TotalShape.num 42), l⟩) = 42 ∧
    normalizeTotal (some ⟨some (TotalShape.obj (some 42)), l⟩) = 42 ∧
    normalizeTotal none = 0 ∧
    (normalizeStats ⟨none, tk, none⟩).total = 0 ∧
    (normalizeStats ⟨none, tk, none⟩).buckets = [] ∧
    queryLogsOutcome ⟨none, tk, none⟩ = QueryOutcome.noResults ∧
    queryLogsOutcome ⟨some ⟨some (TotalShape.num 42), some hl⟩, tk, none⟩ =
      QueryOutcome.results 42 hl :=
  ⟨rfl, rfl, rfl, rfl, rfl, rfl, rfl⟩

/-- Claim C8: a 429 response carrying `Retry-After: 2` classifies to a rate
limit with a 2000 ms suggested delay; the executor uses that suggested
delay in preference to the exponential backoff whatever the attempt number;
a concrete run sleeps exactly 2000 ms (which is at least 2 seconds) before
its successful second attempt. -/
theorem retry_after_honored :
    parseRetryAfter [("retry-after", "2")] = some 2000 ∧
    handleResponseError 429 [("retry-after", "2")] = CError.rateLimit (some 2000) ∧
    (∀ (cfg : Config) (attempt : Nat),
      jsOrInt (getRetryDelay (CError.rateLimit (some 2000)))
        (calculateBackoffDelay cfg attempt) = 2000) ∧
    makeRequest ⟨3, 1000⟩
        (fun a => if a = 1 then HttpOutcome.httpError 429 [("retry-after", "2")]
          else HttpOutcome.success "ok") 1 =
      ⟨Except.ok "ok", [2000], 2⟩ ∧
    (2000 : Int) ≥ 2 * 1000 := by
  refine ⟨by decide, by decide, fun cfg attempt => rfl, ?_, by norm_num⟩
  simp [makeRequest, classifyOutcome, handleResponseError, parseRetryAfter,
    isRetryableError, getRetryDelay, jsOrInt, jsOrOptStr, jsParseInt,
    calculateBackoffDelay, List.lookup]

/-- Claim C9: when the caller supplies neither `from` nor `to` nor a
relative time-range token, both the search and the statistics pipelines
silently substitute the token "24h", so the payload query carries a range
filter on `@timestamp` covering exactly the last 24 hours. -/
theorem default_time_bound_24h (now : Int) (q : String) (limit : Nat) (srt : SortOrder)
    (gb : Option (List String)) :
    resolveTimes none none none now = (some (now - 86400000), some now) ∧
    (∃ m, (searchPipeline ⟨q, none, none, none, none, limit, srt⟩ now).query =
        QueryNode.boolMustFilter m ⟨some (now - 86400000), some now⟩) ∧
    (statsPipeline none none none gb now).query =
      QueryNode.boolFilter ⟨some (now - 86400000), some now⟩ := by
  have hres : resolveTimes none none none now = (some (now - 86400000), some now) := by
    simp [resolveTimes, jsOrStr, parseTimeRange, jsOrOpt]
  refine ⟨hres, ⟨[QueryNode.queryString (smartPhraseDetection q)], ?_⟩, ?_⟩
  · simp [searchPipeline, clientSearchBody, hres]
  · simp [statsPipeline, statsQueryBody, hres]

/-- Claim C10: a relative time token outside the recognized set resolves to
the empty, unbounded range — no `from` and no `to` — instead of raising an
error. -/
theorem unrecognized_token_unbounded (tok : String) (now : Int)
    (h : tok ∉ ["1h", "6h", "12h", "24h", "3d", "7d", "30d"]) :
    parseTimeRange (some tok) now = (none, none) := by
  simp only [List.mem_cons, List.not_mem_nil, or_false, not_or] at h
  obtain ⟨h1, h2, h3, h4, h5, h6, h7⟩ := h
  simp [parseTimeRange, h1, h2, h3, h4, h5, h6, h7]

/-- Witness for claim C10 at the unrecognized token "5m". -/
theorem unrecognized_token_unbounded_witness :
    ("5m" : String) ∉ ["1h", "6h", "12h", "24h", "3d", "7d", "30d"] ∧
    parseTimeRange (some "5m") 0 = (none, none) :=
  ⟨by decide, unrecognized_token_unbounded "5m" 0 (by decide)⟩

end Logzio
